import Mathlib

set_option maxRecDepth 100000

/-!
Verification development for the idempotent-mutation gateway and the
toggle/counter subsystem of the social-network API backend.

The definitions below are a shallow embedding of the Python source:
  * `apps/core/idempotency.py` — request fingerprinting, the idempotency
    record store over the generic cache, the `idempotent` decorator and the
    `IdempotencyMiddleware`;
  * `apps/posts/services.py` (`PostService.toggle_like`) together with the
    `Like` rows and the denormalized `Post.likes_count` column;
  * `apps/follows/services.py` (`FollowService.toggle_follow`) together with
    the `Follow` rows and the derived `User.followers_count`.

Machine integers do not occur (Python integers are unbounded); counters are
embedded as `Int`, ids as `Nat`, payloads and digests as `String`.
-/

namespace Sha256

/-- Truncation to a 32-bit word, `x % 2^32`. -/
def w32 (x : Nat) : Nat := x % 4294967296

/-- Right rotation of a 32-bit word by `n` bits. -/
def rotr (n x : Nat) : Nat :=
  w32 (Nat.lor (Nat.shiftRight x n) (Nat.shiftLeft x (32 - n)))

/-- Logical right shift. -/
def shr (n x : Nat) : Nat := Nat.shiftRight x n

def bigSigma0 (x : Nat) : Nat := Nat.xor (rotr 2 x) (Nat.xor (rotr 13 x) (rotr 22 x))

def bigSigma1 (x : Nat) : Nat := Nat.xor (rotr 6 x) (Nat.xor (rotr 11 x) (rotr 25 x))

def smallSigma0 (x : Nat) : Nat := Nat.xor (rotr 7 x) (Nat.xor (rotr 18 x) (shr 3 x))

def smallSigma1 (x : Nat) : Nat := Nat.xor (rotr 17 x) (Nat.xor (rotr 19 x) (shr 10 x))

/-- Choice function: `(x ∧ y) ⊕ (¬x ∧ z)` on 32-bit words. -/
def ch (x y z : Nat) : Nat :=
  Nat.xor (Nat.land x y) (Nat.land (Nat.xor x 4294967295) z)

/-- Majority function. -/
def maj (x y z : Nat) : Nat :=
  Nat.xor (Nat.land x y) (Nat.xor (Nat.land x z) (Nat.land y z))

/-- The 64 SHA-256 round constants (FIPS 180-4, written in decimal). -/
def K : List Nat :=
  [1116352408, 1899447441, 3049323471, 3921009573, 961987163,
   1508970993, 2453635748, 2870763221, 3624381080, 310598401,
   607225278, 1426881987, 1925078388, 2162078206, 2614888103,
   3248222580, 3835390401, 4022224774, 264347078, 604807628,
   770255983, 1249150122, 1555081692, 1996064986, 2554220882,
   2821834349, 2952996808, 3210313671, 3336571891, 3584528711,
   113926993, 338241895, 666307205, 773529912, 1294757372,
   1396182291, 1695183700, 1986661051, 2177026350, 2456956037,
   2730485921, 2820302411, 3259730800, 3345764771, 3516065817,
   3600352804, 4094571909, 275423344, 430227734, 506948616,
   659060556, 883997877, 958139571, 1322822218, 1537002063,
   1747873779, 1955562222, 2024104815, 2227730452, 2361852424,
   2428436474, 2756734187, 3204031479, 3329325298]

/-- Working state: the eight 32-bit hash registers. -/
structure Hs where
  a : Nat
  b : Nat
  c : Nat
  d : Nat
  e : Nat
  f : Nat
  g : Nat
  h : Nat
  deriving DecidableEq, Repr

/-- Initial hash value (FIPS 180-4, written in decimal). -/
def initHs : Hs :=
  ⟨1779033703, 3144134277, 1013904242, 2773480762,
   1359893119, 2600822924, 528734635, 1541459225⟩

/-- Big-endian byte list of `n`, of width `k` bytes. -/
def beBytes (k n : Nat) : List Nat :=
  match k with
  | 0 => []
  | k + 1 => beBytes k (n / 256) ++ [n % 256]

/-- SHA-256 padding: append `0x80`, zero bytes, then the 64-bit bit length. -/
def padMessage (msg : List Nat) : List Nat :=
  let zeros := (119 - msg.length % 64) % 64
  msg ++ [0x80] ++ List.replicate zeros 0 ++ beBytes 8 (msg.length * 8)

/-- Split a byte list into 64-byte blocks; the fuel argument (any bound on
the number of blocks, here the list length) keeps the recursion structural. -/
def toBlocksAux : Nat → List Nat → List (List Nat)
  | 0, _ => []
  | _ + 1, [] => []
  | fuel + 1, l => l.take 64 :: toBlocksAux fuel (l.drop 64)

def toBlocks (l : List Nat) : List (List Nat) := toBlocksAux l.length l

/-- Pack groups of four bytes into big-endian 32-bit words. -/
def blockWords (block : List Nat) : List Nat :=
  match block with
  | b0 :: b1 :: b2 :: b3 :: rest =>
      (((b0 * 256 + b1) * 256 + b2) * 256 + b3) :: blockWords rest
  | _ => []

/-- Extend the 16 block words to the 64-entry message schedule. -/
def schedule (w16 : List Nat) : Array Nat :=
  (List.range 48).foldl
    (fun ws j =>
      let i := j + 16
      ws.push (w32 (smallSigma1 (ws.getD (i - 2) 0) + ws.getD (i - 7) 0 +
                    smallSigma0 (ws.getD (i - 15) 0) + ws.getD (i - 16) 0)))
    w16.toArray

/-- One compression round. -/
def round (st : Hs) (ki wi : Nat) : Hs :=
  let t1 := w32 (st.h + bigSigma1 st.e + ch st.e st.f st.g + ki + wi)
  let t2 := w32 (bigSigma0 st.a + maj st.a st.b st.c)
  ⟨w32 (t1 + t2), st.a, st.b, st.c, w32 (st.d + t1), st.e, st.f, st.g⟩

/-- Compress one 64-byte block into the running hash state. -/
def compressBlock (hs : Hs) (block : List Nat) : Hs :=
  let ws := schedule (blockWords block)
  let stF := (K.zip ws.toList).foldl (fun st kw => round st kw.1 kw.2) hs
  ⟨w32 (hs.a + stF.a), w32 (hs.b + stF.b), w32 (hs.c + stF.c), w32 (hs.d + stF.d),
   w32 (hs.e + stF.e), w32 (hs.f + stF.f), w32 (hs.g + stF.g), w32 (hs.h + stF.h)⟩

def hexDigit (n : Nat) : Char :=
  if n < 10 then Char.ofNat (48 + n) else Char.ofNat (87 + n)

/-- Lower-case hexadecimal rendering of a 32-bit word, exactly 8 digits. -/
def hex8 (n : Nat) : String :=
  String.mk
    [hexDigit (n / 268435456 % 16), hexDigit (n / 16777216 % 16),
     hexDigit (n / 1048576 % 16), hexDigit (n / 65536 % 16),
     hexDigit (n / 4096 % 16), hexDigit (n / 256 % 16),
     hexDigit (n / 16 % 16), hexDigit (n % 16)]

def digestHex (hs : Hs) : String :=
  hex8 hs.a ++ hex8 hs.b ++ hex8 hs.c ++ hex8 hs.d ++
  hex8 hs.e ++ hex8 hs.f ++ hex8 hs.g ++ hex8 hs.h

/-- SHA-256 hexdigest of a byte list. -/
def sha256hexBytes (msg : List Nat) : String :=
  digestHex ((toBlocks (padMessage msg)).foldl compressBlock initHs)

/-- UTF-8 encoding of one character. -/
def utf8Bytes (c : Char) : List Nat :=
  let n := c.toNat
  if n < 0x80 then [n]
  else if n < 0x800 then [0xc0 + n / 64, 0x80 + n % 64]
  else if n < 0x10000 then [0xe0 + n / 4096, 0x80 + n / 64 % 64, 0x80 + n % 64]
  else [0xf0 + n / 262144, 0x80 + n / 4096 % 64, 0x80 + n / 64 % 64, 0x80 + n % 64]

def strBytes (s : String) : List Nat := (s.data.map utf8Bytes).flatten

/-- `hashlib.sha256(content.encode()).hexdigest()`. -/
def sha256hex (s : String) : String := sha256hexBytes (strBytes s)

theorem hex8_length (n : Nat) : (hex8 n).length = 8 := rfl

/-- Every hexdigest has exactly 64 characters. -/
theorem sha256hex_length (s : String) : (sha256hex s).length = 64 := by
  simp [sha256hex, sha256hexBytes, digestHex, String.length_append, hex8_length]

end Sha256

namespace Idem

/-- An inbound mutation request, with the fields the idempotency layer reads:
`request.method`, `request.path`, `str(request.data)` (the parsed body rendered
as a string), `request.user.id` when authenticated (`none` = anonymous), and
the `X-Idempotency-Key` header (`META["HTTP_X_IDEMPOTENCY_KEY"]`,
`none` = header absent). -/
structure Request where
  method : String
  path : String
  data : String
  user : Option Nat
  idempotencyKey : Option String
  deriving DecidableEq, Repr

/-- `get_idempotency_key`: extract the idempotency key header. -/
def get_idempotency_key (request : Request) : Option String :=
  request.idempotencyKey

/-- Response payloads: either an opaque serialized handler payload, or the
structured error envelope `\x7b"error": \x7b"code": …, "message": …\x7d\x7d`
built by the gateway on a conflict. -/
inductive RespData where
  | payload (s : String)
  | errorEnvelope (code message : String)
  deriving DecidableEq, Repr

/-- A DRF `Response`: payload, HTTP status code, and whether the
`X-Idempotent-Replayed: true` header has been set on it. -/
structure Response where
  data : RespData
  status : Nat
  replayed : Bool
  deriving DecidableEq, Repr

/-- Values held by the generic key-value cache: under `get_cache_key` the dict
`\x7b"data": …, "status": …\x7d`, under `get_fingerprint_key` a fingerprint
string. -/
inductive CacheEntry where
  | respEntry (data : RespData) (status : Nat)
  | fpEntry (fp : String)
  deriving DecidableEq, Repr

/-- The backing cache, keyed by strings (`django.core.cache.cache`). -/
def Cache := List (String × CacheEntry)

instance : DecidableEq Cache := inferInstanceAs (DecidableEq (List (String × CacheEntry)))

/-- `cache.get(key)`. -/
def cache_get (c : Cache) (key : String) : Option CacheEntry :=
  (List.find? (fun e => e.1 == key) c).map (fun e => e.2)

/-- `cache.set(key, value, ttl)` — overwrites any previous value for `key`
(the TTL itself is not part of the functional model). -/
def cache_set (c : Cache) (key : String) (v : CacheEntry) : Cache :=
  (key, v) :: List.filter (fun e => !(e.1 == key)) c

/-- Python `json.dumps` string escaping with `ensure_ascii=True`: lower-case
`\uXXXX` escapes (UTF-16 surrogate pairs above the BMP). -/
def uEscape (n : Nat) : String :=
  "\\u" ++ String.mk
    [Sha256.hexDigit (n / 4096 % 16), Sha256.hexDigit (n / 256 % 16),
     Sha256.hexDigit (n / 16 % 16), Sha256.hexDigit (n % 16)]

def jsonEscapeChar (c : Char) : String :=
  let n := c.toNat
  if c = '\\' then "\\\\"
  else if c = '"' then "\\\""
  else if c = '\n' then "\\n"
  else if c = '\t' then "\\t"
  else if c = '\r' then "\\r"
  else if n = 8 then "\\b"
  else if n = 12 then "\\f"
  else if n < 32 then uEscape n
  else if n < 127 then String.singleton c
  else if n < 65536 then uEscape n
  else uEscape (55296 + (n - 65536) / 1024) ++ uEscape (56320 + (n - 65536) % 1024)

/-- A JSON string literal for `s`. -/
def jsonQuote (s : String) : String :=
  "\"" ++ String.join (s.data.map jsonEscapeChar) ++ "\""

/-- `str(request.user.id) if request.user.is_authenticated else "anon"`. -/
def userStr (user : Option Nat) : String :=
  match user with
  | some i => toString i
  | none => "anon"

/-- `json.dumps(data, sort_keys=True)` of the four-field dict; the keys sort
as `body < method < path < user`. -/
def json_dumps_sorted (body method path user : String) : String :=
  "\x7b\"body\": " ++ jsonQuote body ++
  ", \"method\": " ++ jsonQuote method ++
  ", \"path\": " ++ jsonQuote path ++
  ", \"user\": " ++ jsonQuote user ++ "\x7d"

/-- `generate_request_fingerprint`: SHA-256 hexdigest of the canonical
(sorted-keys) JSON serialization of method, path, body and caller identity. -/
def generate_request_fingerprint (request : Request) : String :=
  Sha256.sha256hex
    (json_dumps_sorted request.data request.method request.path (userStr request.user))

/-- `get_cache_key`. -/
def get_cache_key (idempotency_key : String) : String :=
  "idempotency:" ++ idempotency_key

/-- `get_fingerprint_key`. -/
def get_fingerprint_key (idempotency_key : String) : String :=
  "idempotency:fp:" ++ idempotency_key

/-- `store_idempotent_response`: record the response dict under the cache key
and the fingerprint under the fingerprint key. -/
def store_idempotent_response (idempotency_key fingerprint : String)
    (response_data : RespData) (status_code : Nat) (c : Cache) : Cache :=
  cache_set (cache_set c (get_cache_key idempotency_key)
      (CacheEntry.respEntry response_data status_code))
    (get_fingerprint_key idempotency_key) (CacheEntry.fpEntry fingerprint)

/-- `get_idempotent_response`: the stored `\x7b"data", "status"\x7d` dict, if any. -/
def get_idempotent_response (idempotency_key : String) (c : Cache) :
    Option (RespData × Nat) :=
  match cache_get c (get_cache_key idempotency_key) with
  | some (CacheEntry.respEntry d s) => some (d, s)
  | _ => none

/-- `get_stored_fingerprint`. -/
def get_stored_fingerprint (idempotency_key : String) (c : Cache) : Option String :=
  match cache_get c (get_fingerprint_key idempotency_key) with
  | some (CacheEntry.fpEntry fp) => some fp
  | _ => none

/-- The 409 conflict response the decorator builds on a fingerprint mismatch. -/
def conflictResponse : Response :=
  ⟨RespData.errorEnvelope "IDEMPOTENCY_CONFLICT"
      "Idempotency key already used with different request.",
   409, false⟩

/-- The `idempotent` decorator applied to handler `func`. The handler is a
state transformer on an abstract application state `σ` (its database side
effects); the wrapper threads the cache through explicitly. Python falsiness
of the key (`if not idempotency_key`) covers both the absent header and the
empty string; a truthy stored fingerprint that differs from the current one
yields the conflict response. -/
def idempotent {σ : Type} (func : Request → σ → Response × σ)
    (request : Request) (st : σ) (c : Cache) : Response × σ × Cache :=
  match get_idempotency_key request with
  | none => ((func request st).1, (func request st).2, c)
  | some key =>
    if key = "" then ((func request st).1, (func request st).2, c)
    else
      match get_idempotent_response key c with
      | some (data, stat) =>
        match get_stored_fingerprint key c with
        | some storedFp =>
          if storedFp ≠ "" ∧ storedFp ≠ generate_request_fingerprint request then
            (conflictResponse, st, c)
          else
            (⟨data, stat, true⟩, st, c)
        | none => (⟨data, stat, true⟩, st, c)
      | none =>
        let r := func request st
        if 200 ≤ r.1.status ∧ r.1.status < 300 then
          (r.1, r.2,
           store_idempotent_response key (generate_request_fingerprint request)
             r.1.data r.1.status c)
        else
          (r.1, r.2, c)

/-- `IdempotencyMiddleware.__call__`: no fingerprint check, and on a miss a
2xx response is stored with an empty fingerprint (payloads are modelled as
always JSON-serializable, so the `json.loads` guard never skips). -/
def middleware_call {σ : Type} (get_response : Request → σ → Response × σ)
    (request : Request) (st : σ) (c : Cache) : Response × σ × Cache :=
  if ¬(request.method = "POST" ∨ request.method = "PUT" ∨ request.method = "PATCH") then
    ((get_response request st).1, (get_response request st).2, c)
  else
    match get_idempotency_key request with
    | none => ((get_response request st).1, (get_response request st).2, c)
    | some key =>
      if key = "" then ((get_response request st).1, (get_response request st).2, c)
      else
        match get_idempotent_response key c with
        | some (data, stat) => (⟨data, stat, true⟩, st, c)
        | none =>
          let r := get_response request st
          if 200 ≤ r.1.status ∧ r.1.status < 300 then
            (r.1, r.2, store_idempotent_response key "" r.1.data r.1.status c)
          else
            (r.1, r.2, c)

end Idem

namespace Toggle

/-- The persistent state `PostService.toggle_like` touches: the `likes` table
(rows `(user_id, post_id)`, unique on the pair) and the `posts` table reduced
to its denormalized `likes_count` column (one entry per existing post row). -/
structure LikesDB where
  likes : List (Nat × Nat)
  likes_count : List (Nat × Int)
  deriving DecidableEq, Repr

/-- Read `post.likes_count` (0 if the post row is absent). -/
def getLikesCount (db : LikesDB) (post : Nat) : Int :=
  match List.find? (fun e => e.1 == post) db.likes_count with
  | some e => e.2
  | none => 0

/-- `Post.objects.filter(pk=post).update(likes_count=F("likes_count") + delta)`:
an atomic delta applied to the matching row at the storage layer. -/
def updateCount (m : List (Nat × Int)) (post : Nat) (delta : Int) : List (Nat × Int) :=
  m.map (fun e => if e.1 == post then (e.1, e.2 + delta) else e)

/-- Number of `Like` rows referencing `post`. -/
def likeRowsFor (db : LikesDB) (post : Nat) : Nat :=
  (db.likes.filter (fun r => r.2 == post)).length

/-- `PostService.toggle_like` (sequential semantics): `get_or_create` the
`(user, post)` row; if created, apply the atomic `+1` and return
`(True, post.likes_count)` after `refresh_from_db`; otherwise delete the row,
apply the atomic `-1`, and return `(False, post.likes_count)`. -/
def toggle_like (user post : Nat) (db : LikesDB) : (Bool × Int) × LikesDB :=
  if (user, post) ∈ db.likes then
    let db' : LikesDB := ⟨db.likes.erase (user, post), updateCount db.likes_count post (-1)⟩
    ((false, getLikesCount db' post), db')
  else
    let db' : LikesDB := ⟨(user, post) :: db.likes, updateCount db.likes_count post 1⟩
    ((true, getLikesCount db' post), db')

/-- The `follows` table: rows `(follower_id, following_id)`, unique on the
pair, self-follows excluded by a check constraint. -/
structure FollowsDB where
  follows : List (Nat × Nat)
  deriving DecidableEq, Repr

/-- `user.followers_count`: computed on read as `user.followers.count()`. -/
def followers_count (db : FollowsDB) (user : Nat) : Nat :=
  (db.follows.filter (fun r => r.2 == user)).length

/-- `FollowService.toggle_follow`: self-follow raises
`ValueError("Cannot follow yourself")` before touching storage; otherwise try
`Follow.objects.create` — the unique constraint raising `IntegrityError` is
the signal that the row already existed, in which case the matching rows are
deleted. Returns `(is_following, following.followers_count)` read after the
row change. -/
def toggle_follow (follower following : Nat) (db : FollowsDB) :
    Except String (Bool × Nat) × FollowsDB :=
  if follower = following then
    (Except.error "Cannot follow yourself", db)
  else if (follower, following) ∈ db.follows then
    let db' : FollowsDB := ⟨db.follows.filter (fun r => !(r == (follower, following)))⟩
    (Except.ok (false, followers_count db' following), db')
  else
    let db' : FollowsDB := ⟨(follower, following) :: db.follows⟩
    (Except.ok (true, followers_count db' following), db')

/-- Progress of one in-flight `toggle_like` call, at the granularity of its
two storage statements: the row mutation (`get_or_create` arbitrated by the
unique constraint / the row delete) and the atomic counter delta. -/
inductive ThreadPhase where
  | start
  | created
  | removed
  | finished
  deriving DecidableEq, Repr

/-- A pool of concurrent `toggle_like` calls against one post: the shared
database plus, per thread, its subject user id and its phase. -/
structure ParConfig where
  db : LikesDB
  threads : List (Nat × ThreadPhase)
  deriving DecidableEq, Repr

/-- One atomic step of thread `i` (out-of-range or finished threads do
nothing): from `start`, the arbitrated row mutation — insert the row if
absent (`created`), else delete it (`removed`); then the matching atomic
counter delta (`finished`). -/
def pstep (post : Nat) (c : ParConfig) (i : Nat) : ParConfig :=
  match c.threads[i]? with
  | none => c
  | some (u, ph) =>
    match ph with
    | ThreadPhase.start =>
      if (u, post) ∈ c.db.likes then
        ⟨⟨c.db.likes.erase (u, post), c.db.likes_count⟩,
         c.threads.set i (u, ThreadPhase.removed)⟩
      else
        ⟨⟨(u, post) :: c.db.likes, c.db.likes_count⟩,
         c.threads.set i (u, ThreadPhase.created)⟩
    | ThreadPhase.created =>
      ⟨⟨c.db.likes, updateCount c.db.likes_count post 1⟩,
       c.threads.set i (u, ThreadPhase.finished)⟩
    | ThreadPhase.removed =>
      ⟨⟨c.db.likes, updateCount c.db.likes_count post (-1)⟩,
       c.threads.set i (u, ThreadPhase.finished)⟩
    | ThreadPhase.finished => c

/-- Run an interleaving: the schedule names, step by step, which thread acts. -/
def prun (post : Nat) (c : ParConfig) (sched : List Nat) : ParConfig :=
  sched.foldl (pstep post) c

/-- The initial pool: every subject in `us` about to make a first-time call. -/
def initPool (db : LikesDB) (us : List Nat) : ParConfig :=
  ⟨db, us.map (fun u => (u, ThreadPhase.start))⟩

end Toggle

namespace Idem

theorem find?_filter_of_imp {α : Type} (l : List α) (p q : α → Bool)
    (h : ∀ a, q a = true → p a = true) :
    List.find? q (l.filter p) = List.find? q l := by
  induction l with
  | nil => rfl
  | cons a l ih =>
    by_cases hq : q a = true
    · have hp := h a hq
      simp [List.filter_cons, hp, List.find?, hq]
    · by_cases hp : p a = true
      · simp [List.filter_cons, hp, List.find?, hq, ih]
      · simp only [Bool.not_eq_true] at hp hq
        simp [List.filter_cons, hp, List.find?, hq, ih]

theorem cache_get_set_self (c : Cache) (k : String) (v : CacheEntry) :
    cache_get (cache_set c k v) k = some v := by
  simp [cache_get, cache_set, List.find?]

theorem cache_get_set_ne (c : Cache) (k k' : String) (v : CacheEntry)
    (h : k' ≠ k) :
    cache_get (cache_set c k v) k' = cache_get c k' := by
  have hk : (k == k') = false := by
    simp only [beq_eq_false_iff_ne, ne_eq]
    exact fun he => h he.symm
  unfold cache_get cache_set
  rw [List.find?]
  simp only [hk]
  rw [find?_filter_of_imp]
  intro a ha
  simp only [beq_iff_eq] at ha
  simp [ha, h]

theorem fp_key_ne_cache_key (k : String) : get_fingerprint_key k ≠ get_cache_key k := by
  intro h
  have h2 := congrArg String.length h
  rw [get_fingerprint_key, get_cache_key, String.length_append, String.length_append] at h2
  have e1 : ("idempotency:fp:" : String).length = 15 := rfl
  have e2 : ("idempotency:" : String).length = 12 := rfl
  rw [e1, e2] at h2
  omega

theorem get_idempotent_response_store (k fp : String) (d : RespData) (s : Nat) (c : Cache) :
    get_idempotent_response k (store_idempotent_response k fp d s c) = some (d, s) := by
  unfold get_idempotent_response store_idempotent_response
  rw [cache_get_set_ne _ _ _ _ (Ne.symm (fp_key_ne_cache_key k)), cache_get_set_self]

theorem get_stored_fingerprint_store (k fp : String) (d : RespData) (s : Nat) (c : Cache) :
    get_stored_fingerprint k (store_idempotent_response k fp d s c) = some fp := by
  unfold get_stored_fingerprint store_idempotent_response
  rw [cache_get_set_self]

/-- First run on a store miss with a 2xx handler result: the handler's
response is returned and the record is stored under the token. -/
theorem idempotent_miss_success {σ : Type} (func : Request → σ → Response × σ)
    (request : Request) (st : σ) (c : Cache) (k : String)
    (hk : get_idempotency_key request = some k) (hne : k ≠ "")
    (hmiss : get_idempotent_response k c = none)
    (hsucc : 200 ≤ (func request st).1.status ∧ (func request st).1.status < 300) :
    idempotent func request st c =
      ((func request st).1, (func request st).2,
       store_idempotent_response k (generate_request_fingerprint request)
         (func request st).1.data (func request st).1.status c) := by
  simp [idempotent, hk, hne, hmiss, hsucc]

/-- Claim C9: a request that supplies no idempotency token bypasses the
idempotency machinery entirely: the wrapped handler runs directly, its
response is returned unchanged, and the cache records nothing. -/
theorem idempotent_no_token {σ : Type} (func : Request → σ → Response × σ)
    (request : Request) (st : σ) (c : Cache)
    (h : get_idempotency_key request = none) :
    idempotent func request st c = ((func request st).1, (func request st).2, c) := by
  simp [idempotent, h]

theorem idempotent_no_token_witness :
    Idem.idempotent
      (fun _ (n : Nat) => (⟨RespData.payload "created", 201, false⟩, n + 1))
      ⟨"POST", "/api/v1/posts/", "\x7b'content': 'hello'\x7d", some 1, none⟩ 0
      ([] : Cache) =
      (⟨RespData.payload "created", 201, false⟩, 1, ([] : Cache)) :=
  idempotent_no_token _ _ _ _ rfl

/-- Claim C5: on a token-present store miss whose handler result is not 2xx,
the gateway stores nothing and returns the handler's response unchanged. -/
theorem idempotent_error_not_cached {σ : Type} (func : Request → σ → Response × σ)
    (request : Request) (st : σ) (c : Cache) (k : String)
    (hk : get_idempotency_key request = some k) (hne : k ≠ "")
    (hmiss : get_idempotent_response k c = none)
    (herr : ¬(200 ≤ (func request st).1.status ∧ (func request st).1.status < 300)) :
    idempotent func request st c = ((func request st).1, (func request st).2, c) := by
  simp only [idempotent, hk, hne, hmiss]
  simp [herr]

theorem idempotent_error_not_cached_witness :
    Idem.idempotent
      (fun _ (n : Nat) => (⟨RespData.payload "bad request", 400, false⟩, n + 1))
      ⟨"POST", "/api/v1/posts/", "\x7b\x7d", some 1, some "tok-1"⟩ 0 ([] : Cache) =
      (⟨RespData.payload "bad request", 400, false⟩, 1, ([] : Cache)) :=
  idempotent_error_not_cached _ _ _ _ "tok-1" rfl (by decide) rfl (by decide)

/-- Claim C1: an existing record whose stored fingerprint is retrievable and
differs from the current request's fingerprint is answered with the 409
`IDEMPOTENCY_CONFLICT` envelope; the handler is not invoked (the outcome and
the application state are independent of `func`) and the cache — hence the
stored record — is untouched. -/
theorem idempotent_conflict {σ : Type} (func : Request → σ → Response × σ)
    (request : Request) (st : σ) (c : Cache) (k : String)
    (d : RespData) (s : Nat) (fp : String)
    (hk : get_idempotency_key request = some k) (hne : k ≠ "")
    (hhit : get_idempotent_response k c = some (d, s))
    (hfp : get_stored_fingerprint k c = some fp)
    (hfpne : fp ≠ "")
    (hdiff : fp ≠ generate_request_fingerprint request) :
    idempotent func request st c = (conflictResponse, st, c) := by
  simp [idempotent, hk, hne, hhit, hfp, hfpne, hdiff]

theorem idempotent_conflict_witness :
    Idem.idempotent
      (fun _ (n : Nat) => (⟨RespData.payload "fresh", 201, false⟩, n + 1))
      ⟨"POST", "/api/v1/posts/", "\x7b'content': 'different'\x7d", some 1, some "tok-2"⟩
      0
      ([("idempotency:tok-2", CacheEntry.respEntry (RespData.payload "first") 201),
        ("idempotency:fp:tok-2", CacheEntry.fpEntry "aaaa")] : Cache) =
      (conflictResponse, 0,
       ([("idempotency:tok-2", CacheEntry.respEntry (RespData.payload "first") 201),
         ("idempotency:fp:tok-2", CacheEntry.fpEntry "aaaa")] : Cache)) :=
  idempotent_conflict _ _ _ _ "tok-2" (RespData.payload "first") 201 "aaaa"
    rfl (by decide) rfl rfl (by decide) (by decide)

/-- Claim C2: a first run on a miss followed by any second request bearing
the same token and the same fingerprint: the second response carries the
identical payload and status as the first, is marked with the
`X-Idempotent-Replayed: true` header, leaves the second handler's state
untouched (the handler is not executed), and leaves the store unchanged. -/
theorem idempotent_replay {σ σ' : Type}
    (func : Request → σ → Response × σ) (request : Request) (st : σ) (c : Cache)
    (k : String)
    (func' : Request → σ' → Response × σ') (request' : Request) (st' : σ')
    (hk : get_idempotency_key request = some k) (hne : k ≠ "")
    (hmiss : get_idempotent_response k c = none)
    (hsucc : 200 ≤ (func request st).1.status ∧ (func request st).1.status < 300)
    (hk' : get_idempotency_key request' = some k)
    (hfp : generate_request_fingerprint request' = generate_request_fingerprint request) :
    (idempotent func' request' st' (idempotent func request st c).2.2).1.data
        = (idempotent func request st c).1.data ∧
    (idempotent func' request' st' (idempotent func request st c).2.2).1.status
        = (idempotent func request st c).1.status ∧
    (idempotent func' request' st' (idempotent func request st c).2.2).1.replayed = true ∧
    (idempotent func' request' st' (idempotent func request st c).2.2).2.1 = st' ∧
    (idempotent func' request' st' (idempotent func request st c).2.2).2.2
        = (idempotent func request st c).2.2 := by
  have h1 := idempotent_miss_success func request st c k hk hne hmiss hsucc
  rw [h1]
  have hcond : ¬(generate_request_fingerprint request ≠ "" ∧
      generate_request_fingerprint request ≠ generate_request_fingerprint request') :=
    fun hc => hc.2 hfp.symm
  simp [idempotent, hk', hne, get_idempotent_response_store,
    get_stored_fingerprint_store, hcond]

theorem idempotent_replay_witness :
    (Idem.idempotent
        (fun _ (n : Nat) => (⟨RespData.payload "post-P", 201, false⟩, n + 1))
        ⟨"POST", "/api/v1/posts/", "\x7b'content': 'hello'\x7d", some 1, some "k1"⟩ 0
        (Idem.idempotent
          (fun _ (n : Nat) => (⟨RespData.payload "post-P", 201, false⟩, n + 1))
          ⟨"POST", "/api/v1/posts/", "\x7b'content': 'hello'\x7d", some 1, some "k1"⟩ 0
          ([] : Cache)).2.2).1.data
      = (Idem.idempotent
          (fun _ (n : Nat) => (⟨RespData.payload "post-P", 201, false⟩, n + 1))
          ⟨"POST", "/api/v1/posts/", "\x7b'content': 'hello'\x7d", some 1, some "k1"⟩ 0
          ([] : Cache)).1.data ∧
    (Idem.idempotent
        (fun _ (n : Nat) => (⟨RespData.payload "post-P", 201, false⟩, n + 1))
        ⟨"POST", "/api/v1/posts/", "\x7b'content': 'hello'\x7d", some 1, some "k1"⟩ 0
        (Idem.idempotent
          (fun _ (n : Nat) => (⟨RespData.payload "post-P", 201, false⟩, n + 1))
          ⟨"POST", "/api/v1/posts/", "\x7b'content': 'hello'\x7d", some 1, some "k1"⟩ 0
          ([] : Cache)).2.2).1.status
      = (Idem.idempotent
          (fun _ (n : Nat) => (⟨RespData.payload "post-P", 201, false⟩, n + 1))
          ⟨"POST", "/api/v1/posts/", "\x7b'content': 'hello'\x7d", some 1, some "k1"⟩ 0
          ([] : Cache)).1.status ∧
    (Idem.idempotent
        (fun _ (n : Nat) => (⟨RespData.payload "post-P", 201, false⟩, n + 1))
        ⟨"POST", "/api/v1/posts/", "\x7b'content': 'hello'\x7d", some 1, some "k1"⟩ 0
        (Idem.idempotent
          (fun _ (n : Nat) => (⟨RespData.payload "post-P", 201, false⟩, n + 1))
          ⟨"POST", "/api/v1/posts/", "\x7b'content': 'hello'\x7d", some 1, some "k1"⟩ 0
          ([] : Cache)).2.2).1.replayed = true ∧
    (Idem.idempotent
        (fun _ (n : Nat) => (⟨RespData.payload "post-P", 201, false⟩, n + 1))
        ⟨"POST", "/api/v1/posts/", "\x7b'content': 'hello'\x7d", some 1, some "k1"⟩ 0
        (Idem.idempotent
          (fun _ (n : Nat) => (⟨RespData.payload "post-P", 201, false⟩, n + 1))
          ⟨"POST", "/api/v1/posts/", "\x7b'content': 'hello'\x7d", some 1, some "k1"⟩ 0
          ([] : Cache)).2.2).2.1 = 0 ∧
    (Idem.idempotent
        (fun _ (n : Nat) => (⟨RespData.payload "post-P", 201, false⟩, n + 1))
        ⟨"POST", "/api/v1/posts/", "\x7b'content': 'hello'\x7d", some 1, some "k1"⟩ 0
        (Idem.idempotent
          (fun _ (n : Nat) => (⟨RespData.payload "post-P", 201, false⟩, n + 1))
          ⟨"POST", "/api/v1/posts/", "\x7b'content': 'hello'\x7d", some 1, some "k1"⟩ 0
          ([] : Cache)).2.2).2.2
      = (Idem.idempotent
          (fun _ (n : Nat) => (⟨RespData.payload "post-P", 201, false⟩, n + 1))
          ⟨"POST", "/api/v1/posts/", "\x7b'content': 'hello'\x7d", some 1, some "k1"⟩ 0
          ([] : Cache)).2.2 :=
  idempotent_replay _ _ 0 ([] : Cache) "k1" _ _ 0 rfl (by decide) rfl (by decide) rfl rfl

/-- Claim C8: the fingerprint is a pure function of exactly the method, path,
body content and caller identity: two requests agreeing on those four fields
(whatever their other attributes, such as the idempotency key header) have
identical digests. -/
theorem fingerprint_deterministic (r1 r2 : Request)
    (hm : r1.method = r2.method) (hp : r1.path = r2.path)
    (hb : r1.data = r2.data) (hu : r1.user = r2.user) :
    generate_request_fingerprint r1 = generate_request_fingerprint r2 := by
  unfold generate_request_fingerprint
  rw [hm, hp, hb, hu]

theorem fingerprint_deterministic_witness :
    generate_request_fingerprint
        ⟨"POST", "/api/v1/posts/", "\x7b'content': 'hello'\x7d", some 7, some "k1"⟩ =
      generate_request_fingerprint
        ⟨"POST", "/api/v1/posts/", "\x7b'content': 'hello'\x7d", some 7, some "k2"⟩ :=
  fingerprint_deterministic _ _ rfl rfl rfl rfl

/-- Claim C10: the result and the fingerprint live under two separate cache
keys, and the middleware store path writes an empty fingerprint; after the
middleware has cached a 2xx response for a token, any later request through
the `idempotent` decorator bearing the same token — whatever its body and
hence fingerprint — is answered with the cached response marked as a replay
rather than rejected with `IDEMPOTENCY_CONFLICT`. -/
theorem middleware_stored_then_replayed {σ σ' : Type}
    (get_response : Request → σ → Response × σ) (request0 : Request) (st0 : σ)
    (c0 : Cache) (k : String)
    (func : Request → σ' → Response × σ') (request : Request) (st : σ')
    (hm : request0.method = "POST")
    (hk0 : get_idempotency_key request0 = some k) (hne : k ≠ "")
    (hmiss : get_idempotent_response k c0 = none)
    (hsucc : 200 ≤ (get_response request0 st0).1.status ∧
      (get_response request0 st0).1.status < 300)
    (hk : get_idempotency_key request = some k) :
    idempotent func request st (middleware_call get_response request0 st0 c0).2.2 =
      (⟨(get_response request0 st0).1.data, (get_response request0 st0).1.status, true⟩,
       st, (middleware_call get_response request0 st0 c0).2.2) := by
  have h1 : middleware_call get_response request0 st0 c0 =
      ((get_response request0 st0).1, (get_response request0 st0).2,
       store_idempotent_response k "" (get_response request0 st0).1.data
         (get_response request0 st0).1.status c0) := by
    simp [middleware_call, hm, hk0, hne, hmiss, hsucc]
  rw [h1]
  have hcond : ¬(("" : String) ≠ "" ∧
      ("" : String) ≠ generate_request_fingerprint request) := fun hc => hc.1 rfl
  simp [idempotent, hk, hne, get_idempotent_response_store,
    get_stored_fingerprint_store, hcond]

theorem middleware_stored_then_replayed_witness :
    Idem.idempotent
      (fun _ (n : Nat) => (⟨RespData.payload "fresh", 201, false⟩, n + 1))
      ⟨"POST", "/api/v1/posts/", "\x7b'content': 'different'\x7d", some 1, some "k9"⟩ 0
      (Idem.middleware_call
        (fun _ (n : Nat) => (⟨RespData.payload "original", 201, false⟩, n + 1))
        ⟨"POST", "/api/v1/posts/", "\x7b'content': 'hello'\x7d", some 1, some "k9"⟩ 0
        ([] : Cache)).2.2 =
      (⟨RespData.payload "original", 201, true⟩, 0,
       (Idem.middleware_call
         (fun _ (n : Nat) => (⟨RespData.payload "original", 201, false⟩, n + 1))
         ⟨"POST", "/api/v1/posts/", "\x7b'content': 'hello'\x7d", some 1, some "k9"⟩ 0
         ([] : Cache)).2.2) :=
  middleware_stored_then_replayed _ _ 0 ([] : Cache) "k9" _ _ 0
    rfl rfl (by decide) rfl (by decide) rfl

end Idem

namespace Toggle

theorem find?_updateCount_eq (m : List (Nat × Int)) (post : Nat) (delta : Int) :
    List.find? (fun e => e.1 == post) (updateCount m post delta)
      = (List.find? (fun e => e.1 == post) m).map (fun e => (e.1, e.2 + delta)) := by
  induction m with
  | nil => rfl
  | cons e m ih =>
    simp only [updateCount, List.map_cons] at ih ⊢
    by_cases he : (e.1 == post) = true
    · rw [if_pos he]
      simp only [List.find?, he]
      rfl
    · simp only [Bool.not_eq_true] at he
      rw [if_neg (by simp [he])]
      simp only [List.find?, he]
      exact ih

theorem getLikesCount_update (ls ls' : List (Nat × Nat)) (m : List (Nat × Int))
    (post : Nat) (delta : Int) (h : post ∈ m.map Prod.fst) :
    getLikesCount ⟨ls, updateCount m post delta⟩ post
      = getLikesCount ⟨ls', m⟩ post + delta := by
  have hsome : (List.find? (fun e => e.1 == post) m).isSome := by
    rw [List.find?_isSome]
    obtain ⟨e, hem, hfst⟩ := List.mem_map.mp h
    exact ⟨e, hem, by simp [hfst]⟩
  obtain ⟨x, hx⟩ := Option.isSome_iff_exists.mp hsome
  simp [getLikesCount, find?_updateCount_eq, hx]

theorem updateCount_keys (m : List (Nat × Int)) (post : Nat) (delta : Int) :
    (updateCount m post delta).map Prod.fst = m.map Prod.fst := by
  induction m with
  | nil => rfl
  | cons e m ih =>
    simp only [updateCount, List.map_cons] at ih ⊢
    rw [ih]
    congr 1
    by_cases he : (e.1 == post) = true <;> simp [he]

theorem likeRowsFor_erase (ls : List (Nat × Nat)) (m m' : List (Nat × Int))
    (u post : Nat) (h : (u, post) ∈ ls) :
    likeRowsFor ⟨ls, m⟩ post = likeRowsFor ⟨ls.erase (u, post), m'⟩ post + 1 := by
  induction ls with
  | nil => simp at h
  | cons a ls ih =>
    by_cases ha : a = (u, post)
    · subst ha
      rw [List.erase_cons_head]
      simp [likeRowsFor, List.filter_cons]
    · have hbeq : (a == (u, post)) = false := beq_eq_false_iff_ne.mpr ha
      have h' : (u, post) ∈ ls := by
        rcases List.mem_cons.mp h with hc | hc
        · exact absurd hc.symm ha
        · exact hc
      have hih := ih h'
      rw [List.erase_cons_tail]
      · by_cases hp : (a.2 == post) = true
        · simp only [likeRowsFor, List.filter_cons, hp, if_true] at hih ⊢
          simp only [List.length_cons]
          omega
        · simp only [Bool.not_eq_true] at hp
          simp only [likeRowsFor, List.filter_cons, hp] at hih ⊢
          simpa using hih
      · simp [hbeq]

/-- Claim C3: `toggle_like` preserves the denormalized-counter invariant of
the target post: if `likes_count` equals the number of `Like` rows
referencing the post beforehand (and the post row exists), it still does
afterwards, in both the like and the unlike branch. -/
theorem toggle_like_preserves_invariant (u post : Nat) (db : LikesDB)
    (hkey : post ∈ db.likes_count.map Prod.fst)
    (hinv : getLikesCount db post = (likeRowsFor db post : Int)) :
    getLikesCount (toggle_like u post db).2 post
      = (likeRowsFor (toggle_like u post db).2 post : Int) := by
  by_cases hmem : (u, post) ∈ db.likes
  · simp only [toggle_like, if_pos hmem]
    have hrows := likeRowsFor_erase db.likes db.likes_count
      (updateCount db.likes_count post (-1)) u post hmem
    have hcnt := getLikesCount_update (db.likes.erase (u, post)) db.likes
      db.likes_count post (-1) hkey
    have hdb : getLikesCount ⟨db.likes, db.likes_count⟩ post = getLikesCount db post := rfl
    have hdb2 : likeRowsFor ⟨db.likes, db.likes_count⟩ post = likeRowsFor db post := rfl
    rw [hdb] at hcnt
    rw [hdb2] at hrows
    rw [hcnt, hinv]
    omega
  · simp only [toggle_like, if_neg hmem]
    have hcnt := getLikesCount_update ((u, post) :: db.likes) db.likes
      db.likes_count post 1 hkey
    have hdb : getLikesCount ⟨db.likes, db.likes_count⟩ post = getLikesCount db post := rfl
    rw [hdb] at hcnt
    rw [hcnt, hinv]
    have hrows : likeRowsFor ⟨(u, post) :: db.likes, updateCount db.likes_count post 1⟩ post
        = likeRowsFor db post + 1 := by
      simp [likeRowsFor, List.filter_cons]
    rw [hrows]
    omega

theorem toggle_like_preserves_invariant_witness :
    getLikesCount (toggle_like 1 2 ⟨[], [(2, 0)]⟩).2 2
      = (likeRowsFor (toggle_like 1 2 ⟨[], [(2, 0)]⟩).2 2 : Int) :=
  toggle_like_preserves_invariant 1 2 ⟨[], [(2, 0)]⟩ (by decide) (by decide)

/-- Claim C4: double application of the toggle is a net no-op. For a like:
from no `(u, post)` row and counter `n`, the first call returns `(true, n+1)`
and the second `(false, n)`, leaving no row for the pair and the counter at
`n`. For a follow between distinct users: from no `(f, g)` row and derived
followers count `m`, the calls return `(true, m+1)` then `(false, m)`,
leaving no row for the pair and the count at `m`. -/
theorem toggle_double_application (u post : Nat) (n : Int) (db : LikesDB)
    (hkey : post ∈ db.likes_count.map Prod.fst)
    (hnomem : (u, post) ∉ db.likes)
    (hn : getLikesCount db post = n)
    (f g m : Nat) (fdb : FollowsDB)
    (hfg : f ≠ g)
    (hfmem : (f, g) ∉ fdb.follows)
    (hm : followers_count fdb g = m) :
    ((toggle_like u post db).1 = (true, n + 1) ∧
     (toggle_like u post (toggle_like u post db).2).1 = (false, n) ∧
     (u, post) ∉ (toggle_like u post (toggle_like u post db).2).2.likes ∧
     getLikesCount (toggle_like u post (toggle_like u post db).2).2 post = n) ∧
    ((toggle_follow f g fdb).1 = Except.ok (true, m + 1) ∧
     (toggle_follow f g (toggle_follow f g fdb).2).1 = Except.ok (false, m) ∧
     (f, g) ∉ (toggle_follow f g (toggle_follow f g fdb).2).2.follows ∧
     followers_count (toggle_follow f g (toggle_follow f g fdb).2).2 g = m) := by
  constructor
  · have h1 : toggle_like u post db =
        ((true, getLikesCount ⟨(u, post) :: db.likes, updateCount db.likes_count post 1⟩ post),
         ⟨(u, post) :: db.likes, updateCount db.likes_count post 1⟩) := by
      simp only [toggle_like, if_neg hnomem]
    have hc1 : getLikesCount ⟨(u, post) :: db.likes, updateCount db.likes_count post 1⟩ post
        = n + 1 := by
      have := getLikesCount_update ((u, post) :: db.likes) db.likes
        db.likes_count post 1 hkey
      have hdb : getLikesCount ⟨db.likes, db.likes_count⟩ post = getLikesCount db post := rfl
      rw [hdb, hn] at this
      exact this
    have hmem2 : (u, post) ∈ (u, post) :: db.likes := List.mem_cons_self _ _
    have herase : ((u, post) :: db.likes).erase (u, post) = db.likes :=
      List.erase_cons_head _ _
    have h2 : toggle_like u post ⟨(u, post) :: db.likes, updateCount db.likes_count post 1⟩ =
        ((false, getLikesCount ⟨db.likes,
            updateCount (updateCount db.likes_count post 1) post (-1)⟩ post),
         ⟨db.likes, updateCount (updateCount db.likes_count post 1) post (-1)⟩) := by
      simp only [toggle_like, if_pos hmem2, herase]
    have hkey1 : post ∈ (updateCount db.likes_count post 1).map Prod.fst := by
      rw [updateCount_keys]; exact hkey
    have hc2 : getLikesCount ⟨db.likes,
        updateCount (updateCount db.likes_count post 1) post (-1)⟩ post = n := by
      have := getLikesCount_update db.likes ((u, post) :: db.likes)
        (updateCount db.likes_count post 1) post (-1) hkey1
      rw [hc1] at this
      omega
    refine ⟨by rw [h1, hc1], ?_, ?_, ?_⟩
    · rw [h1, h2, hc2]
    · rw [h1, h2]
      exact hnomem
    · rw [h1, h2]
      exact hc2
  · have hc1 : followers_count ⟨(f, g) :: fdb.follows⟩ g = m + 1 := by
      have hstep : followers_count ⟨(f, g) :: fdb.follows⟩ g = followers_count fdb g + 1 := by
        simp [followers_count, List.filter_cons]
      rw [hstep, hm]
    have h1 : toggle_follow f g fdb =
        (Except.ok (true, followers_count ⟨(f, g) :: fdb.follows⟩ g),
         ⟨(f, g) :: fdb.follows⟩) := by
      simp only [toggle_follow, if_neg hfg, if_neg hfmem]
    have hmem2 : (f, g) ∈ (f, g) :: fdb.follows := List.mem_cons_self _ _
    have hfilter : ((f, g) :: fdb.follows).filter (fun r => !(r == (f, g))) = fdb.follows := by
      rw [List.filter_cons]
      have hhead : (!((f, g) == (f, g))) = false := by simp
      simp only [hhead, Bool.false_eq_true, if_false]
      exact List.filter_eq_self.mpr (fun a ha => by
        simp only [Bool.not_eq_true', beq_eq_false_iff_ne, ne_eq]
        exact fun hc => hfmem (hc ▸ ha))
    have h2 : toggle_follow f g ⟨(f, g) :: fdb.follows⟩ =
        (Except.ok (false, followers_count ⟨fdb.follows⟩ g), ⟨fdb.follows⟩) := by
      simp only [toggle_follow, if_neg hfg, if_pos hmem2, hfilter]
    have hfc : followers_count ⟨fdb.follows⟩ g = m := hm
    refine ⟨by rw [h1, hc1], by rw [h1, h2, hfc], ?_, by rw [h1, h2]; exact hfc⟩
    rw [h1, h2]
    exact hfmem

theorem toggle_double_application_witness :
    ((toggle_like 1 2 ⟨[], [(2, 5)]⟩).1 = (true, 5 + 1) ∧
     (toggle_like 1 2 (toggle_like 1 2 ⟨[], [(2, 5)]⟩).2).1 = (false, 5) ∧
     (1, 2) ∉ (toggle_like 1 2 (toggle_like 1 2 ⟨[], [(2, 5)]⟩).2).2.likes ∧
     getLikesCount (toggle_like 1 2 (toggle_like 1 2 ⟨[], [(2, 5)]⟩).2).2 2 = 5) ∧
    ((toggle_follow 1 2 ⟨[(3, 2)]⟩).1 = Except.ok (true, 1 + 1) ∧
     (toggle_follow 1 2 (toggle_follow 1 2 ⟨[(3, 2)]⟩).2).1 = Except.ok (false, 1) ∧
     (1, 2) ∉ (toggle_follow 1 2 (toggle_follow 1 2 ⟨[(3, 2)]⟩).2).2.follows ∧
     followers_count (toggle_follow 1 2 (toggle_follow 1 2 ⟨[(3, 2)]⟩).2).2 2 = 1) :=
  toggle_double_application 1 2 5 ⟨[], [(2, 5)]⟩ (by decide) (by decide) (by decide)
    1 2 1 ⟨[(3, 2)]⟩ (by decide) (by decide) (by decide)

/-- Claim C7: the Follow-variant toggle with `subject == object` fails fast
with the self-follow error and returns the database untouched: no row is
created or deleted and no count changes. -/
theorem toggle_follow_self (u : Nat) (db : FollowsDB) :
    toggle_follow u u db = (Except.error "Cannot follow yourself", db) := by
  simp [toggle_follow]

/-- Threads that have performed their row mutation. -/
def nStarted (c : ParConfig) : Nat :=
  (c.threads.filter (fun t => !(t.2 == ThreadPhase.start))).length

/-- Threads that have also performed their counter delta. -/
def nFinished (c : ParConfig) : Nat :=
  (c.threads.filter (fun t => t.2 == ThreadPhase.finished)).length

theorem set_getElem?_self {α : Type} {l : List α} {i : Nat} {a : α}
    (h : l[i]? = some a) : l.set i a = l := by
  induction l generalizing i with
  | nil => simp at h
  | cons x l ih =>
    cases i with
    | zero =>
      simp only [List.getElem?_cons_zero, Option.some.injEq] at h
      subst h
      rfl
    | succ i =>
      simp only [List.getElem?_cons_succ] at h
      simp only [List.set]
      rw [ih h]

theorem length_filter_set {α : Type} (l : List α) (i : Nat) (a b : α) (p : α → Bool)
    (h : l[i]? = some a) :
    ((l.set i b).filter p).length + (if p a then 1 else 0)
      = (l.filter p).length + (if p b then 1 else 0) := by
  induction l generalizing i with
  | nil => simp at h
  | cons x l ih =>
    cases i with
    | zero =>
      simp only [List.getElem?_cons_zero, Option.some.injEq] at h
      subst h
      simp only [List.set]
      by_cases hpa : p x = true <;> by_cases hpb : p b = true <;>
        simp [List.filter_cons, hpa, hpb, Nat.add_comm]
    | succ i =>
      simp only [List.getElem?_cons_succ] at h
      have hih := ih i h
      simp only [List.set]
      by_cases hpx : p x = true <;>
        simp only [List.filter_cons, hpx, if_true, if_false, List.length_cons,
          Bool.false_eq_true] <;> omega

theorem length_filter_set_ft {α : Type} (l : List α) (i : Nat) (a b : α) (p : α → Bool)
    (h : l[i]? = some a) (hpa : p a = false) (hpb : p b = true) :
    ((l.set i b).filter p).length = (l.filter p).length + 1 := by
  have hmain := length_filter_set l i a b p h
  rw [hpa, hpb] at hmain
  simpa using hmain

theorem length_filter_set_ff {α : Type} (l : List α) (i : Nat) (a b : α) (p : α → Bool)
    (h : l[i]? = some a) (hpa : p a = false) (hpb : p b = false) :
    ((l.set i b).filter p).length = (l.filter p).length := by
  have hmain := length_filter_set l i a b p h
  rw [hpa, hpb] at hmain
  simpa using hmain

theorem length_filter_set_tt {α : Type} (l : List α) (i : Nat) (a b : α) (p : α → Bool)
    (h : l[i]? = some a) (hpa : p a = true) (hpb : p b = true) :
    ((l.set i b).filter p).length = (l.filter p).length := by
  have hmain := length_filter_set l i a b p h
  rw [hpa, hpb] at hmain
  simpa using hmain

theorem nodup_getElem?_ne {α : Type} {l : List α} (hnd : l.Nodup) {i j : Nat} {a b : α}
    (hij : i ≠ j) (ha : l[i]? = some a) (hb : l[j]? = some b) : a ≠ b := by
  obtain ⟨hi, hia⟩ := List.getElem?_eq_some_iff.mp ha
  obtain ⟨hj, hjb⟩ := List.getElem?_eq_some_iff.mp hb
  intro hab
  apply hij
  have hgl : l[i] = l[j] := by rw [hia, hjb, hab]
  exact (List.Nodup.getElem_inj_iff hnd).mp hgl

/-- Inductive invariant of the interleaved pool of first-time `toggle_like`
calls by pairwise-distinct subjects `us` against one post, starting from
`db0` in which none of those rows exist: every thread's subject row is absent
before its mutation and present exactly once after it, no thread ever takes
the delete path, the row total tracks the number of performed row mutations,
and the counter tracks the number of performed counter deltas. -/
structure PoolInv (post : Nat) (us : List Nat) (db0 : LikesDB) (c : ParConfig) : Prop where
  subj : c.threads.map Prod.fst = us
  no_removed : ∀ (i u : Nat) (ph : ThreadPhase),
      c.threads[i]? = some (u, ph) → ph ≠ ThreadPhase.removed
  row : ∀ (i u : Nat) (ph : ThreadPhase), c.threads[i]? = some (u, ph) →
      c.db.likes.count (u, post) = (if ph = ThreadPhase.start then 0 else 1)
  rows_total : likeRowsFor c.db post = likeRowsFor db0 post + nStarted c
  counter : getLikesCount c.db post = getLikesCount db0 post + (nFinished c : Int)
  keys : c.db.likes_count.map Prod.fst = db0.likes_count.map Prod.fst

theorem pstep_inv (post : Nat) (us : List Nat) (db0 : LikesDB)
    (hnd : us.Nodup) (hkey0 : post ∈ db0.likes_count.map Prod.fst)
    (c : ParConfig) (i : Nat) (hinv : PoolInv post us db0 c) :
    PoolInv post us db0 (pstep post c i) := by
  obtain ⟨hsubj, hnorem, hrow, hrows, hcnt, hkeys⟩ := hinv
  cases hth : c.threads[i]? with
  | none =>
    simp only [pstep, hth]
    exact ⟨hsubj, hnorem, hrow, hrows, hcnt, hkeys⟩
  | some t =>
    obtain ⟨u, ph⟩ := t
    have hi : i < c.threads.length := (List.getElem?_eq_some_iff.mp hth).1
    have husi : us[i]? = some u := by
      rw [← hsubj]
      simp [hth]
    have hsubj' : ∀ ph', (c.threads.set i (u, ph')).map Prod.fst = us := by
      intro ph'
      rw [List.map_set, hsubj]
      exact set_getElem?_self husi
    have hnorem' : ∀ ph', ph' ≠ ThreadPhase.removed →
        ∀ (j v : Nat) (q : ThreadPhase), (c.threads.set i (u, ph'))[j]? = some (v, q) →
          q ≠ ThreadPhase.removed := by
      intro ph' hph j v q hj
      by_cases hij : i = j
      · subst hij
        rw [List.getElem?_set_self hi] at hj
        cases hj
        exact hph
      · rw [List.getElem?_set_ne hij] at hj
        exact hnorem j v q hj
    cases ph with
    | start =>
      have hcz : c.db.likes.count (u, post) = 0 := by
        simpa using hrow i u ThreadPhase.start hth
      have hnotmem : (u, post) ∉ c.db.likes := List.count_eq_zero.mp hcz
      have hns := length_filter_set_ft c.threads i (u, ThreadPhase.start)
        (u, ThreadPhase.created) (fun t => !(t.2 == ThreadPhase.start)) hth rfl rfl
      have hnf := length_filter_set_ff c.threads i (u, ThreadPhase.start)
        (u, ThreadPhase.created) (fun t => t.2 == ThreadPhase.finished) hth rfl rfl
      simp only [pstep, hth, if_neg hnotmem]
      refine ⟨hsubj' _, hnorem' _ (by decide), ?_, ?_, ?_, hkeys⟩
      · intro j v q hj
        by_cases hij : i = j
        · subst hij
          rw [List.getElem?_set_self hi] at hj
          cases hj
          simp [List.count_cons_self, hcz]
        · rw [List.getElem?_set_ne hij] at hj
          have husj : us[j]? = some v := by
            rw [← hsubj]
            simp [hj]
          have hvu : v ≠ u := nodup_getElem?_ne hnd (fun h => hij h.symm) husj husi
          have hpair : (v, post) ≠ (u, post) := fun hc => hvu (congrArg Prod.fst hc)
          have := hrow j v q hj
          rw [List.count_cons_of_ne hpair]
          exact this
      · have hlike : likeRowsFor ⟨(u, post) :: c.db.likes, c.db.likes_count⟩ post
            = likeRowsFor c.db post + 1 := by
          simp [likeRowsFor, List.filter_cons]
        unfold nStarted
        dsimp only
        rw [hlike, hrows, hns]
        unfold nStarted
        omega
      · have hgc : getLikesCount ⟨(u, post) :: c.db.likes, c.db.likes_count⟩ post
            = getLikesCount c.db post := rfl
        unfold nFinished
        dsimp only
        rw [hgc, hcnt, hnf]
        unfold nFinished
        omega
    | created =>
      have hkeym : post ∈ c.db.likes_count.map Prod.fst := by rw [hkeys]; exact hkey0
      have hgc : getLikesCount ⟨c.db.likes, updateCount c.db.likes_count post 1⟩ post
          = getLikesCount c.db post + 1 :=
        getLikesCount_update c.db.likes c.db.likes c.db.likes_count post 1 hkeym
      have hns := length_filter_set_tt c.threads i (u, ThreadPhase.created)
        (u, ThreadPhase.finished) (fun t => !(t.2 == ThreadPhase.start)) hth rfl rfl
      have hnf := length_filter_set_ft c.threads i (u, ThreadPhase.created)
        (u, ThreadPhase.finished) (fun t => t.2 == ThreadPhase.finished) hth rfl rfl
      simp only [pstep, hth]
      refine ⟨hsubj' _, hnorem' _ (by decide), ?_, ?_, ?_, ?_⟩
      · intro j v q hj
        by_cases hij : i = j
        · subst hij
          rw [List.getElem?_set_self hi] at hj
          cases hj
          simpa using hrow i u ThreadPhase.created hth
        · rw [List.getElem?_set_ne hij] at hj
          exact hrow j v q hj
      · have hlike : likeRowsFor ⟨c.db.likes, updateCount c.db.likes_count post 1⟩ post
            = likeRowsFor c.db post := rfl
        unfold nStarted
        dsimp only
        rw [hlike, hrows, hns]
        unfold nStarted
        omega
      · unfold nFinished
        dsimp only
        rw [hgc, hcnt, hnf]
        unfold nFinished
        omega
      · rw [updateCount_keys]
        exact hkeys
    | removed => exact absurd rfl (hnorem i u ThreadPhase.removed hth)
    | finished =>
      simp only [pstep, hth]
      exact ⟨hsubj, hnorem, hrow, hrows, hcnt, hkeys⟩

theorem prun_inv (post : Nat) (us : List Nat) (db0 : LikesDB)
    (hnd : us.Nodup) (hkey0 : post ∈ db0.likes_count.map Prod.fst)
    (sched : List Nat) (c : ParConfig) (hinv : PoolInv post us db0 c) :
    PoolInv post us db0 (prun post c sched) := by
  induction sched generalizing c with
  | nil => exact hinv
  | cons s sched ih => exact ih (pstep post c s) (pstep_inv post us db0 hnd hkey0 c s hinv)

theorem initPool_inv (post : Nat) (us : List Nat) (db0 : LikesDB)
    (hrows0 : likeRowsFor db0 post = 0) :
    PoolInv post us db0 (initPool db0 us) := by
  have hnotmem : ∀ u : Nat, (u, post) ∉ db0.likes := by
    intro u hmem
    have hmf : (u, post) ∈ db0.likes.filter (fun r => r.2 == post) :=
      List.mem_filter.mpr ⟨hmem, by simp⟩
    have hlen : 0 < likeRowsFor db0 post :=
      List.length_pos.mpr (List.ne_nil_of_mem hmf)
    omega
  have hstart : ∀ (j v : Nat) (q : ThreadPhase),
      (initPool db0 us).threads[j]? = some (v, q) → q = ThreadPhase.start := by
    intro j v q hj
    simp only [initPool, List.getElem?_map] at hj
    cases hus : us[j]? with
    | none => rw [hus] at hj; simp at hj
    | some w =>
      rw [hus] at hj
      simp only [Option.map_some', Option.some.injEq, Prod.mk.injEq] at hj
      exact hj.2.symm
  refine ⟨?_, ?_, ?_, ?_, ?_, rfl⟩
  · have hcomp : (Prod.fst ∘ fun u : Nat => (u, ThreadPhase.start)) = id := rfl
    show (us.map (fun u => (u, ThreadPhase.start))).map Prod.fst = us
    rw [List.map_map, hcomp, List.map_id]
  · intro j v q hj
    rw [hstart j v q hj]
    decide
  · intro j v q hj
    rw [hstart j v q hj]
    simpa using List.count_eq_zero.mpr (hnotmem v)
  · have hflt : (initPool db0 us).threads.filter
        (fun t => !(t.2 == ThreadPhase.start)) = [] := by
      rw [List.filter_eq_nil_iff]
      intro a ha
      obtain ⟨w, hw, rfl⟩ := List.mem_map.mp ha
      simp
    unfold nStarted
    rw [hflt]
    simp [initPool]
  · have hflt : (initPool db0 us).threads.filter
        (fun t => t.2 == ThreadPhase.finished) = [] := by
      rw [List.filter_eq_nil_iff]
      intro a ha
      obtain ⟨w, hw, rfl⟩ := List.mem_map.mp ha
      simp
    unfold nFinished
    rw [hflt]
    simp [initPool]

/-- Claim C6: under any interleaving of `N` concurrent first-time
`toggle_like` calls from `N` pairwise-distinct subjects against one post —
each call one atomic row mutation arbitrated by the unique pair constraint,
then one atomic counter delta — a completed run from a state with no rows
for the post and counter `0` ends with the counter equal to `N`, `N` rows
referencing the post, and exactly one row per subject. -/
theorem toggle_like_counter_race (post : Nat) (us : List Nat) (db0 : LikesDB)
    (sched : List Nat)
    (hnd : us.Nodup)
    (hrows0 : likeRowsFor db0 post = 0)
    (hcount0 : getLikesCount db0 post = 0)
    (hkey : post ∈ db0.likes_count.map Prod.fst)
    (hdone : ∀ t ∈ (prun post (initPool db0 us) sched).threads,
        t.2 = ThreadPhase.finished) :
    getLikesCount (prun post (initPool db0 us) sched).db post = (us.length : Int) ∧
    likeRowsFor (prun post (initPool db0 us) sched).db post = us.length ∧
    ∀ u ∈ us, (prun post (initPool db0 us) sched).db.likes.count (u, post) = 1 := by
  obtain ⟨hsubj, hnorem, hrow, hrows, hcnt, hkeys⟩ :=
    prun_inv post us db0 hnd hkey sched (initPool db0 us)
      (initPool_inv post us db0 hrows0)
  set c := prun post (initPool db0 us) sched with hc
  have hlen : c.threads.length = us.length := by
    rw [← hsubj, List.length_map]
  have hfilt1 : c.threads.filter (fun t => t.2 == ThreadPhase.finished) = c.threads :=
    List.filter_eq_self.mpr (fun t ht => by simp [hdone t ht])
  have hfilt2 : c.threads.filter (fun t => !(t.2 == ThreadPhase.start)) = c.threads :=
    List.filter_eq_self.mpr (fun t ht => by simp [hdone t ht])
  have hnf : nFinished c = us.length := by
    unfold nFinished
    rw [hfilt1, hlen]
  have hns : nStarted c = us.length := by
    unfold nStarted
    rw [hfilt2, hlen]
  refine ⟨?_, ?_, ?_⟩
  · rw [hcnt, hcount0, hnf]
    simp
  · rw [hrows, hrows0, hns]
    omega
  · intro u hu
    obtain ⟨j, hjus, hju⟩ := List.getElem_of_mem hu
    have hjlt : j < c.threads.length := by omega
    have husj : us[j]? = some u := by
      rw [List.getElem?_eq_getElem hjus, hju]
    cases hthj : c.threads[j]? with
    | none =>
      rw [List.getElem?_eq_none_iff] at hthj
      omega
    | some t =>
      obtain ⟨v, q⟩ := t
      have hmem : (v, q) ∈ c.threads := List.getElem?_mem hthj
      have hq : q = ThreadPhase.finished := hdone (v, q) hmem
      have hv : v = u := by
        have hmap := congrArg (fun l => l[j]?) hsubj
        simp only [List.getElem?_map, hthj, Option.map_some'] at hmap
        rw [husj] at hmap
        exact Option.some.inj hmap
      have hr := hrow j v q hthj
      rw [hq, hv] at hr
      simpa using hr

theorem toggle_like_counter_race_witness :
    getLikesCount (prun 3 (initPool ⟨[], [(3, 0)]⟩ [5, 7]) [0, 1, 0, 1]).db 3 = (2 : Int) ∧
    likeRowsFor (prun 3 (initPool ⟨[], [(3, 0)]⟩ [5, 7]) [0, 1, 0, 1]).db 3 = 2 ∧
    ∀ u ∈ [5, 7],
      (prun 3 (initPool ⟨[], [(3, 0)]⟩ [5, 7]) [0, 1, 0, 1]).db.likes.count (u, 3) = 1 :=
  toggle_like_counter_race 3 [5, 7] ⟨[], [(3, 0)]⟩ [0, 1, 0, 1]
    (by decide) (by decide) (by decide) (by decide) (by decide)

end Toggle
